import Mathlib

/-!
Shallow embedding of the Voting contract (`contracts/Voting.sol`) of the
voting_DApp repository, together with proofs of the specification's claims
about it.

Addresses are modelled as natural numbers, with `0` standing for Solidity's
`address(0)`.  Solidity mappings are modelled as total functions with the
EVM's zero-default.  A reverting call is modelled as `Except.error e`: the
EVM discards every write of a reverted call, so the post-state of a failed
operation is the pre-state (see `applyOp`).  `block.timestamp` is passed to
every operation as an explicit `time` argument.  String byte length
(`bytes(_name).length` in Solidity) is `String.utf8ByteSize`.
-/

namespace VotingDApp

/-- Audit events of the contract, one constructor per Solidity `event`
declaration (`VoterRegistered`, `CandidateAdded`, `VoteCast`,
`VotingStatusChanged`, `AdminChanged`), each carrying the fields the
contract emits, the `block.timestamp` included. -/
inductive VEvent where
  | VoterRegistered (voter time : Nat)
  | CandidateAdded (candidateId : Nat) (name : String) (time : Nat)
  | VoteCast (voter candidateId time : Nat)
  | VotingStatusChanged (active : Bool) (time : Nat)
  | AdminChanged (oldAdmin newAdmin time : Nat)
deriving DecidableEq, Repr

/-- Failure kinds, one constructor per `require` in the contract, named by
the spec's error taxonomy:
`AccessDenied` = "Only admin can perform this action" (`onlyAdmin`);
`NotRegistered` = "You are not registered to vote" (`onlyRegisteredVoter`);
`AlreadyVoted` = "You have already voted" (`hasNotVoted`);
`ElectionInactive` = "Voting is currently inactive" (`votingIsActive`);
`InvalidCandidate` = "Invalid candidate ID" (`vote`);
`DuplicateRegistration` = "Voter is already registered" (`registerVoter`);
`InvalidIdentity` = "Invalid voter address" / "Invalid admin address";
`EmptyName` = "Candidate name cannot be empty" (`addCandidate`);
`NameTooLong` = "Candidate name too long" (`addCandidate`);
`SameAuthority` = "New admin cannot be the same as current admin". -/
inductive VError where
  | AccessDenied
  | NotRegistered
  | AlreadyVoted
  | ElectionInactive
  | InvalidCandidate
  | DuplicateRegistration
  | InvalidIdentity
  | EmptyName
  | NameTooLong
  | SameAuthority
deriving DecidableEq, Repr

/-- Contract storage: one field per state variable of `Voting.sol`, plus the
append-only list of emitted events (the audit log). -/
structure VState where
  admin : Nat
  registeredVoters : Nat → Bool
  hasVoted : Nat → Bool
  voteCounts : Nat → Nat
  candidates : Nat → String
  candidateCount : Nat
  totalVotes : Nat
  votingActive : Bool
  events : List VEvent

/-- Constructor of `Voting.sol`: the deployer becomes admin, voting starts
disabled, counters start at zero, and the two initial events are emitted. -/
def initState (deployer time : Nat) : VState :=
  { admin := deployer
    registeredVoters := fun _ => false
    hasVoted := fun _ => false
    voteCounts := fun _ => 0
    candidates := fun _ => ""
    candidateCount := 0
    totalVotes := 0
    votingActive := false
    events := [VEvent.AdminChanged 0 deployer time,
               VEvent.VotingStatusChanged false time] }

/-- `registerVoter(address _voter)`: `onlyAdmin`, then
`require(!registeredVoters[_voter])`, then `require(_voter != address(0))`,
then sets `registeredVoters[_voter] = true` and emits `VoterRegistered`. -/
def registerVoter (s : VState) (sender voter time : Nat) : Except VError VState :=
  if sender ≠ s.admin then .error .AccessDenied
  else if s.registeredVoters voter then .error .DuplicateRegistration
  else if voter = 0 then .error .InvalidIdentity
  else .ok { s with
    registeredVoters := fun a => if a = voter then true else s.registeredVoters a
    events := s.events ++ [VEvent.VoterRegistered voter time] }

/-- `addCandidate(string memory _name)`: `onlyAdmin`, then
`require(bytes(_name).length > 0)`, then `require(bytes(_name).length <= 64)`,
then `candidateCount++`, `candidates[candidateCount] = _name`, and emits
`CandidateAdded` (no write to `voteCounts`, which defaults to 0). -/
def addCandidate (s : VState) (sender : Nat) (name : String) (time : Nat) :
    Except VError VState :=
  if sender ≠ s.admin then .error .AccessDenied
  else if ¬ 0 < name.utf8ByteSize then .error .EmptyName
  else if ¬ name.utf8ByteSize ≤ 64 then .error .NameTooLong
  else .ok { s with
    candidateCount := s.candidateCount + 1
    candidates := fun i => if i = s.candidateCount + 1 then name else s.candidates i
    events := s.events ++ [VEvent.CandidateAdded (s.candidateCount + 1) name time] }

/-- `toggleVoting()`: `onlyAdmin`, then `votingActive = !votingActive` and
emits `VotingStatusChanged` with the new value. -/
def toggleVoting (s : VState) (sender time : Nat) : Except VError VState :=
  if sender ≠ s.admin then .error .AccessDenied
  else .ok { s with
    votingActive := !s.votingActive
    events := s.events ++ [VEvent.VotingStatusChanged (!s.votingActive) time] }

/-- `transferAdmin(address _newAdmin)`: `onlyAdmin`, then
`require(_newAdmin != address(0))`, then `require(_newAdmin != admin)`,
then `admin = _newAdmin` and emits `AdminChanged(oldAdmin, _newAdmin)`. -/
def transferAdmin (s : VState) (sender newAdmin time : Nat) : Except VError VState :=
  if sender ≠ s.admin then .error .AccessDenied
  else if newAdmin = 0 then .error .InvalidIdentity
  else if newAdmin = s.admin then .error .SameAuthority
  else .ok { s with
    admin := newAdmin
    events := s.events ++ [VEvent.AdminChanged s.admin newAdmin time] }

/-- `vote(uint _candidateId)`: modifiers `onlyRegisteredVoter`, `hasNotVoted`,
`votingIsActive` in that order, then
`require(_candidateId > 0 && _candidateId <= candidateCount)`, then the four
writes `hasVoted[msg.sender] = true`, `voteCounts[_candidateId]++`,
`totalVotes++` and the `VoteCast` emission. -/
def vote (s : VState) (sender candidateId time : Nat) : Except VError VState :=
  if ¬ s.registeredVoters sender then .error .NotRegistered
  else if s.hasVoted sender then .error .AlreadyVoted
  else if ¬ s.votingActive then .error .ElectionInactive
  else if ¬ (0 < candidateId ∧ candidateId ≤ s.candidateCount) then
    .error .InvalidCandidate
  else .ok { s with
    hasVoted := fun a => if a = sender then true else s.hasVoted a
    voteCounts := fun i => if i = candidateId then s.voteCounts i + 1 else s.voteCounts i
    totalVotes := s.totalVotes + 1
    events := s.events ++ [VEvent.VoteCast sender candidateId time] }

/-- The winner-finding loop shared by `showResults` and `getWinner`:
starting from `highestVoteCount = 0` and `winningCandidateId = 1`, scan
candidate ids `1, …, n` in ascending order and update both trackers exactly
when `voteCounts[i] > highestVoteCount`.  Returns
`(highestVoteCount, winningCandidateId)`. -/
def winnerScan (vc : Nat → Nat) : Nat → Nat × Nat
  | 0 => (0, 1)
  | n + 1 =>
    let p := winnerScan vc n
    if vc (n + 1) > p.1 then (vc (n + 1), n + 1) else p

/-- `showResults()`: arrays of vote counts and names for candidate ids
`1, …, candidateCount` in ascending order, plus the winning candidate id;
`(empty, empty, 0)` when there are no candidates. -/
def showResults (s : VState) : List Nat × List String × Nat :=
  let votes := (List.range s.candidateCount).map fun i => s.voteCounts (i + 1)
  let names := (List.range s.candidateCount).map fun i => s.candidates (i + 1)
  if s.candidateCount = 0 then (votes, names, 0)
  else (votes, names, (winnerScan s.voteCounts s.candidateCount).2)

/-- `getWinner()`: `("", 0, false)` with no candidates, otherwise the
winning candidate's name, its highest vote count, and `true`. -/
def getWinner (s : VState) : String × Nat × Bool :=
  if s.candidateCount = 0 then ("", 0, false)
  else
    let p := winnerScan s.voteCounts s.candidateCount
    (s.candidates p.2, p.1, true)

/-- `getCandidateInfo(uint _candidateId)`: `("", 0, false)` for id `0` or an
id beyond `candidateCount`, otherwise name, vote count and `true`. -/
def getCandidateInfo (s : VState) (candidateId : Nat) : String × Nat × Bool :=
  if candidateId = 0 ∨ candidateId > s.candidateCount then ("", 0, false)
  else (s.candidates candidateId, s.voteCounts candidateId, true)

/-- `getVoterStatus(address _voter)`: registration flag, voted flag, and
`canVote = isRegistered && !hasVotedAlready && votingActive`. -/
def getVoterStatus (s : VState) (voter : Nat) : Bool × Bool × Bool :=
  (s.registeredVoters voter, s.hasVoted voter,
    s.registeredVoters voter && !s.hasVoted voter && s.votingActive)

/-- One external call to a mutating entry point of the contract, with its
`msg.sender` and `block.timestamp`. -/
inductive Op where
  | registerVoter (sender voter time : Nat)
  | addCandidate (sender : Nat) (name : String) (time : Nat)
  | toggleVoting (sender time : Nat)
  | transferAdmin (sender newAdmin time : Nat)
  | vote (sender candidateId time : Nat)

/-- Dispatch an external call to the corresponding contract function. -/
def runOp (s : VState) : Op → Except VError VState
  | .registerVoter sender voter time => registerVoter s sender voter time
  | .addCandidate sender name time => addCandidate s sender name time
  | .toggleVoting sender time => toggleVoting s sender time
  | .transferAdmin sender newAdmin time => transferAdmin s sender newAdmin time
  | .vote sender candidateId time => vote s sender candidateId time

/-- Post-state of a call under EVM revert semantics: a failed call leaves
storage untouched. -/
def applyOp (s : VState) (op : Op) : VState :=
  match runOp s op with
  | .ok s' => s'
  | .error _ => s

/-- Run a sequence of external calls from a state. -/
def execOps (s : VState) (ops : List Op) : VState :=
  ops.foldl applyOp s

/-- States reachable from deployment by some sequence of external calls.
The deployer is a real account, hence not `address(0)`. -/
def Reachable (s : VState) : Prop :=
  ∃ deployer time ops, deployer ≠ 0 ∧ s = execOps (initState deployer time) ops

/-- Sum of `vc i` over the candidate ids `i = 1, …, n`. -/
def sumVoteCounts (vc : Nat → Nat) : Nat → Nat
  | 0 => 0
  | n + 1 => sumVoteCounts vc n + vc (n + 1)

/-- State invariant maintained by every contract operation: `totalVotes`
equals the sum of all candidates' vote counts, ids beyond `candidateCount`
have a zero count, `address(0)` is never registered, only registered voters
have voted, and the admin is never `address(0)`. -/
structure Inv (s : VState) : Prop where
  total_eq : s.totalVotes = sumVoteCounts s.voteCounts s.candidateCount
  counts_zero : ∀ i, s.candidateCount < i → s.voteCounts i = 0
  zero_not_registered : s.registeredVoters 0 = false
  voted_registered : ∀ v, s.hasVoted v = true → s.registeredVoters v = true
  admin_ne : s.admin ≠ 0

theorem sumVoteCounts_congr (f g : Nat → Nat) (n : Nat)
    (h : ∀ i, 1 ≤ i → i ≤ n → f i = g i) :
    sumVoteCounts f n = sumVoteCounts g n := by
  induction n with
  | zero => rfl
  | succ n ih =>
    have hn := h (n + 1) (by omega) (by omega)
    have ih' := ih fun i h1 h2 => h i h1 (by omega)
    simp [sumVoteCounts, hn, ih']

theorem sumVoteCounts_update (vc : Nat → Nat) (cid n : Nat)
    (h1 : 1 ≤ cid) (h2 : cid ≤ n) :
    sumVoteCounts (fun i => if i = cid then vc i + 1 else vc i) n
      = sumVoteCounts vc n + 1 := by
  induction n with
  | zero => omega
  | succ n ih =>
    by_cases hc : cid = n + 1
    · subst hc
      have hrest : sumVoteCounts (fun i => if i = n + 1 then vc i + 1 else vc i) n
          = sumVoteCounts vc n :=
        sumVoteCounts_congr _ _ n fun i hi1 hi2 => by
          simp [show i ≠ n + 1 by omega]
      simp [sumVoteCounts, hrest]
      omega
    · have ih' := ih (by omega)
      simp only [sumVoteCounts, ih']
      rw [if_neg (by omega : ¬ (n + 1 = cid))]
      omega

theorem inv_registerVoter (s : VState) (a v t : Nat) (hInv : Inv s)
    (s' : VState) (h : registerVoter s a v t = .ok s') : Inv s' := by
  unfold registerVoter at h
  split at h
  · cases h
  split at h
  · cases h
  split at h
  · cases h
  case _ hdup hzero =>
  cases h
  refine ⟨hInv.total_eq, hInv.counts_zero, ?_, ?_, hInv.admin_ne⟩
  · simp only
    rw [if_neg (by exact fun h0 => hzero h0.symm)]
    exact hInv.zero_not_registered
  · intro w hw
    simp only at hw ⊢
    split
    · rfl
    · exact hInv.voted_registered w hw

theorem inv_addCandidate (s : VState) (a : Nat) (nm : String) (t : Nat) (hInv : Inv s)
    (s' : VState) (h : addCandidate s a nm t = .ok s') : Inv s' := by
  unfold addCandidate at h
  split at h
  · cases h
  split at h
  · cases h
  split at h
  · cases h
  cases h
  refine ⟨?_, ?_, hInv.zero_not_registered, hInv.voted_registered, hInv.admin_ne⟩
  · simp only [sumVoteCounts]
    rw [hInv.counts_zero (s.candidateCount + 1) (by omega)]
    simp [hInv.total_eq]
  · intro i hi
    exact hInv.counts_zero i (by simp only at hi; omega)

theorem inv_toggleVoting (s : VState) (a t : Nat) (hInv : Inv s)
    (s' : VState) (h : toggleVoting s a t = .ok s') : Inv s' := by
  unfold toggleVoting at h
  split at h
  · cases h
  cases h
  exact ⟨hInv.total_eq, hInv.counts_zero, hInv.zero_not_registered,
    hInv.voted_registered, hInv.admin_ne⟩

theorem inv_transferAdmin (s : VState) (a na t : Nat) (hInv : Inv s)
    (s' : VState) (h : transferAdmin s a na t = .ok s') : Inv s' := by
  unfold transferAdmin at h
  split at h
  · cases h
  split at h
  · cases h
  split at h
  · cases h
  case _ hzero hsame =>
  cases h
  exact ⟨hInv.total_eq, hInv.counts_zero, hInv.zero_not_registered,
    hInv.voted_registered, hzero⟩

theorem inv_vote (s : VState) (a cid t : Nat) (hInv : Inv s)
    (s' : VState) (h : vote s a cid t = .ok s') : Inv s' := by
  unfold vote at h
  split at h
  · cases h
  split at h
  · cases h
  split at h
  · cases h
  split at h
  · cases h
  case _ hreg hvoted hactive hcid =>
  rw [not_not] at hcid
  cases h
  refine ⟨?_, ?_, hInv.zero_not_registered, ?_, hInv.admin_ne⟩
  · simp only
    rw [sumVoteCounts_update s.voteCounts cid s.candidateCount hcid.1 hcid.2]
    simp [hInv.total_eq]
  · intro i hi
    simp only at hi ⊢
    rw [if_neg (by omega)]
    exact hInv.counts_zero i hi
  · intro w hw
    simp only at hw ⊢
    by_cases hwa : w = a
    · subst hwa
      simpa using hreg
    · rw [if_neg hwa] at hw
      exact hInv.voted_registered w hw

theorem inv_applyOp (s : VState) (op : Op) (hInv : Inv s) : Inv (applyOp s op) := by
  unfold applyOp
  cases hrun : runOp s op with
  | error e => exact hInv
  | ok s' =>
    cases op with
    | registerVoter a v t => exact inv_registerVoter s a v t hInv s' hrun
    | addCandidate a nm t => exact inv_addCandidate s a nm t hInv s' hrun
    | toggleVoting a t => exact inv_toggleVoting s a t hInv s' hrun
    | transferAdmin a na t => exact inv_transferAdmin s a na t hInv s' hrun
    | vote a cid t => exact inv_vote s a cid t hInv s' hrun

theorem inv_execOps (s : VState) (ops : List Op) (hInv : Inv s) :
    Inv (execOps s ops) := by
  induction ops generalizing s with
  | nil => exact hInv
  | cons op ops ih => exact ih (applyOp s op) (inv_applyOp s op hInv)

theorem inv_initState (d t : Nat) (hd : d ≠ 0) : Inv (initState d t) := by
  refine ⟨rfl, fun i _ => rfl, rfl, ?_, hd⟩
  intro v hv
  cases hv

theorem reachable_inv (s : VState) (h : Reachable s) : Inv s := by
  obtain ⟨d, t, ops, hd, rfl⟩ := h
  exact inv_execOps _ ops (inv_initState d t hd)

/-- Whether a call returned normally (did not revert). -/
def callOk : Except VError VState → Bool
  | .ok _ => true
  | .error _ => false

theorem winnerScan_spec (vc : Nat → Nat) :
    ∀ n, 1 ≤ n →
      1 ≤ (winnerScan vc n).2 ∧ (winnerScan vc n).2 ≤ n ∧
      vc (winnerScan vc n).2 = (winnerScan vc n).1 ∧
      (∀ i, 1 ≤ i → i ≤ n → vc i ≤ (winnerScan vc n).1) ∧
      (∀ i, 1 ≤ i → i < (winnerScan vc n).2 → vc i < (winnerScan vc n).1) := by
  intro n
  induction n with
  | zero => omega
  | succ n ih =>
    intro _
    by_cases hn0 : n = 0
    · subst hn0
      simp only [winnerScan]
      split
      next h =>
        refine ⟨by omega, by omega, rfl, ?_, ?_⟩
        · intro i hi1 hi2
          have : i = 1 := by omega
          subst this
          exact le_refl _
        · intro i hi1 hi2
          omega
      next h =>
        have h1 : vc 1 = 0 := by
          have h' : ¬ vc 1 > 0 := h
          omega
        refine ⟨by omega, by omega, ?_, ?_, ?_⟩
        · show vc 1 = 0
          exact h1
        · intro i hi1 hi2
          have : i = 1 := by omega
          subst this
          show vc 1 ≤ 0
          omega
        · intro i hi1 hi2
          have hi2' : i < 1 := hi2
          omega
    · have hn1 : 1 ≤ n := by omega
      obtain ⟨ih1, ih2, ih3, ih4, ih5⟩ := ih hn1
      simp only [winnerScan]
      split
      next h =>
        refine ⟨by omega, by omega, rfl, ?_, ?_⟩
        · intro i hi1 hi2
          by_cases hi : i = n + 1
          · subst hi; exact le_refl _
          · exact le_of_lt (lt_of_le_of_lt (ih4 i hi1 (by omega)) h)
        · intro i hi1 hi2
          exact lt_of_le_of_lt (ih4 i hi1 (by omega)) h
      next h =>
        refine ⟨ih1, by omega, ih3, ?_, ih5⟩
        intro i hi1 hi2
        by_cases hi : i = n + 1
        · subst hi; omega
        · exact ih4 i hi1 (by omega)

theorem winnerScan_all_zero (vc : Nat → Nat) :
    ∀ n, (∀ i, 1 ≤ i → i ≤ n → vc i = 0) → winnerScan vc n = (0, 1) := by
  intro n
  induction n with
  | zero => intro _; rfl
  | succ n ih =>
    intro h
    have hrest := ih fun i h1 h2 => h i h1 (by omega)
    have hlast := h (n + 1) (by omega) (by omega)
    simp [winnerScan, hrest, hlast]

/-- Concrete deployment used by the witnesses: deployer/admin `1` adds the
candidate "Alice", registers voter `5` and activates voting. -/
def demo : VState :=
  execOps (initState 1 0)
    [Op.addCandidate 1 "Alice" 0, Op.registerVoter 1 5 0, Op.toggleVoting 1 0]

/-- C1: `castVote(candidateId)` checks its four preconditions in the order
caller-registered (`NotRegistered`), caller-not-voted (`AlreadyVoted`),
election-active (`ElectionInactive`), `1 ≤ candidateId ≤ candidateCount`
(`InvalidCandidate`); each violation produces that distinct failure with
the state unchanged, and on success exactly the four effects — `voted` set,
the candidate's count incremented, `totalVotes` incremented, a `VoteCast`
event appended — apply together in one indivisible step. -/
theorem castVote_precondition_order (s : VState) (sender cid time : Nat) :
    (s.registeredVoters sender = false →
      vote s sender cid time = .error .NotRegistered) ∧
    (s.registeredVoters sender = true → s.hasVoted sender = true →
      vote s sender cid time = .error .AlreadyVoted) ∧
    (s.registeredVoters sender = true → s.hasVoted sender = false →
      s.votingActive = false →
      vote s sender cid time = .error .ElectionInactive) ∧
    (s.registeredVoters sender = true → s.hasVoted sender = false →
      s.votingActive = true → ¬ (1 ≤ cid ∧ cid ≤ s.candidateCount) →
      vote s sender cid time = .error .InvalidCandidate) ∧
    (∀ e, vote s sender cid time = .error e →
      applyOp s (Op.vote sender cid time) = s) ∧
    (s.registeredVoters sender = true → s.hasVoted sender = false →
      s.votingActive = true → 1 ≤ cid → cid ≤ s.candidateCount →
      vote s sender cid time = .ok
        { s with
          hasVoted := fun a => if a = sender then true else s.hasVoted a
          voteCounts := fun i =>
            if i = cid then s.voteCounts i + 1 else s.voteCounts i
          totalVotes := s.totalVotes + 1
          events := s.events ++ [VEvent.VoteCast sender cid time] }) := by
  refine ⟨?_, ?_, ?_, ?_, ?_, ?_⟩
  · intro h1
    simp [vote, h1]
  · intro h1 h2
    simp [vote, h1, h2]
  · intro h1 h2 h3
    simp [vote, h1, h2, h3]
  · intro h1 h2 h3 h4
    simp only [vote, h1, h2, h3]
    simp only [Bool.true_eq_false, not_true_eq_false, not_false_eq_true,
      Bool.false_eq_true, if_false, if_true]
    exact if_pos fun hc => h4 ⟨hc.1, hc.2⟩
  · intro e h
    simp [applyOp, runOp, h]
  · intro h1 h2 h3 h4 h5
    simp only [vote, h1, h2, h3]
    simp only [Bool.true_eq_false, not_true_eq_false, not_false_eq_true,
      Bool.false_eq_true, if_false, if_true]
    rw [if_neg (not_not_intro ⟨h4, h5⟩)]

/-- Witness for C1: in the demo state, voter `5` successfully votes for
candidate `1` and exactly the four effects apply. -/
theorem castVote_precondition_order_witness :
    vote demo 5 1 7 = .ok
      { demo with
        hasVoted := fun a => if a = 5 then true else demo.hasVoted a
        voteCounts := fun i => if i = 1 then demo.voteCounts i + 1 else demo.voteCounts i
        totalVotes := demo.totalVotes + 1
        events := demo.events ++ [VEvent.VoteCast 5 1 7] } :=
  (castVote_precondition_order demo 5 1 7).2.2.2.2.2
    (by decide) (by decide) (by decide) (by decide) (by decide)

/-- C2: in every reachable state, `totalVotes` equals the sum of the vote
counts of all candidates. -/
theorem totalVotes_eq_sum_of_voteCounts (s : VState) (h : Reachable s) :
    s.totalVotes = sumVoteCounts s.voteCounts s.candidateCount :=
  (reachable_inv s h).total_eq

/-- Witness for C2 at a concrete reachable state with one vote cast. -/
theorem totalVotes_eq_sum_of_voteCounts_witness :
    (execOps demo [Op.vote 5 1 7]).totalVotes
      = sumVoteCounts (execOps demo [Op.vote 5 1 7]).voteCounts
          (execOps demo [Op.vote 5 1 7]).candidateCount :=
  totalVotes_eq_sum_of_voteCounts _
    ⟨1, 0, [Op.addCandidate 1 "Alice" 0, Op.registerVoter 1 5 0,
            Op.toggleVoting 1 0, Op.vote 5 1 7], by decide, rfl⟩

/-- C7: two consecutive successful `toggleActivation` calls by the authority
return the activation flag to its original value, each call flipping the
flag; the toggle never fails for the authority, so there is no terminal
state. -/
theorem toggleActivation_involution (s : VState) (sender t1 t2 : Nat)
    (h : sender = s.admin) :
    ∃ s1 s2, toggleVoting s sender t1 = .ok s1 ∧
      s1.votingActive = (!s.votingActive) ∧
      toggleVoting s1 sender t2 = .ok s2 ∧
      s2.votingActive = s.votingActive := by
  subst h
  refine ⟨({ s with
             votingActive := !s.votingActive
             events := s.events ++ [VEvent.VotingStatusChanged (!s.votingActive) t1] }),
          ({ s with
             votingActive := !(!s.votingActive)
             events := (s.events ++ [VEvent.VotingStatusChanged (!s.votingActive) t1])
               ++ [VEvent.VotingStatusChanged (!(!s.votingActive)) t2] }),
          ?_, rfl, ?_, Bool.not_not _⟩
  · unfold toggleVoting
    rw [if_neg (not_not_intro rfl)]
  · unfold toggleVoting
    rw [if_neg (not_not_intro rfl)]

/-- Witness for C7: toggling twice from deployment restores the initial
(inactive) flag. -/
theorem toggleActivation_involution_witness :
    ∃ s1 s2, toggleVoting (initState 1 0) 1 3 = .ok s1 ∧
      s1.votingActive = (!(initState 1 0).votingActive) ∧
      toggleVoting s1 1 4 = .ok s2 ∧
      s2.votingActive = (initState 1 0).votingActive :=
  toggleActivation_involution (initState 1 0) 1 3 4 rfl

/-- C10: a successful `castVote` changes only the caller's `voted` flag, the
chosen candidate's count, `totalVotes` and the audit log; the admin, the
activation flag, `candidateCount`, all names, all other counts and all
other participants' flags are untouched. -/
theorem castVote_frame (s : VState) (sender cid time : Nat) (s' : VState)
    (h : vote s sender cid time = .ok s') :
    s'.admin = s.admin ∧
    s'.votingActive = s.votingActive ∧
    s'.candidateCount = s.candidateCount ∧
    (∀ i, s'.candidates i = s.candidates i) ∧
    (∀ i, i ≠ cid → s'.voteCounts i = s.voteCounts i) ∧
    (∀ a, s'.registeredVoters a = s.registeredVoters a) ∧
    (∀ a, a ≠ sender → s'.hasVoted a = s.hasVoted a) ∧
    s'.hasVoted sender = true ∧
    s'.voteCounts cid = s.voteCounts cid + 1 ∧
    s'.totalVotes = s.totalVotes + 1 ∧
    s'.events = s.events ++ [VEvent.VoteCast sender cid time] := by
  unfold vote at h
  split at h
  · cases h
  split at h
  · cases h
  split at h
  · cases h
  split at h
  · cases h
  cases h
  refine ⟨rfl, rfl, rfl, fun i => rfl, ?_, fun a => rfl, ?_, ?_, ?_, rfl, rfl⟩
  · intro i hi
    simp [hi]
  · intro a ha
    simp [ha]
  · simp
  · simp

/-- Witness for C10: the frame holds for the concrete successful vote of the
demo state. -/
theorem castVote_frame_witness :
    ∃ s', vote demo 5 1 7 = Except.ok s' ∧ s'.admin = demo.admin ∧
      s'.totalVotes = demo.totalVotes + 1 := by
  obtain ⟨s', hs'⟩ : ∃ s', vote demo 5 1 7 = Except.ok s' := ⟨_, rfl⟩
  exact ⟨s', hs', (castVote_frame demo 5 1 7 s' hs').1,
    (castVote_frame demo 5 1 7 s' hs').2.2.2.2.2.2.2.2.2.1⟩

theorem showResults_votes (s : VState) :
    (showResults s).1 = (List.range s.candidateCount).map fun i => s.voteCounts (i + 1) := by
  simp only [showResults]
  split <;> rfl

theorem showResults_names (s : VState) :
    (showResults s).2.1 = (List.range s.candidateCount).map fun i => s.candidates (i + 1) := by
  simp only [showResults]
  split <;> rfl

theorem showResults_winner_pos (s : VState) (h : s.candidateCount ≠ 0) :
    (showResults s).2.2 = (winnerScan s.voteCounts s.candidateCount).2 := by
  simp only [showResults]
  rw [if_neg h]

theorem getWinner_pos (s : VState) (h : s.candidateCount ≠ 0) :
    getWinner s = (s.candidates (winnerScan s.voteCounts s.candidateCount).2,
      (winnerScan s.voteCounts s.candidateCount).1, true) := by
  simp only [getWinner]
  rw [if_neg h]

theorem hasVoted_change (s : VState) (op : Op) (v : Nat) :
    (applyOp s op).hasVoted v = s.hasVoted v ∨
    (s.hasVoted v = false ∧ (applyOp s op).hasVoted v = true ∧
      ∃ cid t s', op = Op.vote v cid t ∧ runOp s op = .ok s') := by
  cases op with
  | registerVoter a w t =>
    simp only [applyOp, runOp]
    cases hrun : registerVoter s a w t with
    | error e => exact Or.inl rfl
    | ok s' =>
      unfold registerVoter at hrun
      split at hrun
      · cases hrun
      split at hrun
      · cases hrun
      split at hrun
      · cases hrun
      cases hrun
      exact Or.inl rfl
  | addCandidate a nm t =>
    simp only [applyOp, runOp]
    cases hrun : addCandidate s a nm t with
    | error e => exact Or.inl rfl
    | ok s' =>
      unfold addCandidate at hrun
      split at hrun
      · cases hrun
      split at hrun
      · cases hrun
      split at hrun
      · cases hrun
      cases hrun
      exact Or.inl rfl
  | toggleVoting a t =>
    simp only [applyOp, runOp]
    cases hrun : toggleVoting s a t with
    | error e => exact Or.inl rfl
    | ok s' =>
      unfold toggleVoting at hrun
      split at hrun
      · cases hrun
      cases hrun
      exact Or.inl rfl
  | transferAdmin a na t =>
    simp only [applyOp, runOp]
    cases hrun : transferAdmin s a na t with
    | error e => exact Or.inl rfl
    | ok s' =>
      unfold transferAdmin at hrun
      split at hrun
      · cases hrun
      split at hrun
      · cases hrun
      split at hrun
      · cases hrun
      cases hrun
      exact Or.inl rfl
  | vote a cid t =>
    simp only [applyOp, runOp]
    cases hrun : vote s a cid t with
    | error e => exact Or.inl rfl
    | ok s' =>
      unfold vote at hrun
      split at hrun
      · cases hrun
      split at hrun
      · cases hrun
      split at hrun
      · cases hrun
      split at hrun
      · cases hrun
      case _ hreg hvoted hactive hcid =>
      cases hrun
      by_cases hv : v = a
      · subst hv
        right
        exact ⟨by simpa using hvoted, by simp, cid, t, _, rfl, rfl⟩
      · left
        simp [hv]

/-- C8: the `voted` flag of any identity is monotone — once `true` it stays
`true` under any sequence of operations — and a `false → true` transition
can only be caused by that identity's own successful `castVote`. -/
theorem voted_transitions_once (s : VState) (v : Nat) :
    (∀ ops, s.hasVoted v = true → (execOps s ops).hasVoted v = true) ∧
    (∀ op, s.hasVoted v = false → (applyOp s op).hasVoted v = true →
      ∃ cid t s', op = Op.vote v cid t ∧ runOp s op = .ok s') := by
  constructor
  · intro ops
    induction ops generalizing s with
    | nil => exact fun h => h
    | cons op ops ih =>
      intro h
      refine ih (applyOp s op) ?_
      rcases hasVoted_change s op v with hsame | ⟨hfalse, _, _⟩
      · rw [hsame]; exact h
      · rw [h] at hfalse; cases hfalse
  · intro op hfalse htrue
    rcases hasVoted_change s op v with hsame | ⟨_, _, hcause⟩
    · rw [htrue, hfalse] at hsame; cases hsame
    · exact hcause

/-- Witness for C8: after voter `5` votes in the demo state, the flag stays
`true` under a further operation. -/
theorem voted_transitions_once_witness :
    (execOps (execOps demo [Op.vote 5 1 7]) [Op.toggleVoting 1 8]).hasVoted 5 = true :=
  (voted_transitions_once (execOps demo [Op.vote 5 1 7]) 5).1
    [Op.toggleVoting 1 8] (by decide)

/-- C9: in any state with at least one candidate in which every candidate
has zero votes, `computeWinner` still reports a winner: candidate `1`, with
zero votes and `exists = true`. -/
theorem winner_reported_without_votes (s : VState)
    (h1 : 1 ≤ s.candidateCount)
    (h2 : ∀ i, 1 ≤ i → i ≤ s.candidateCount → s.voteCounts i = 0) :
    getWinner s = (s.candidates 1, 0, true) := by
  rw [getWinner_pos s (by omega), winnerScan_all_zero s.voteCounts s.candidateCount h2]

/-- Witness for C9: the demo state has one candidate and no votes, yet a
winner is reported. -/
theorem winner_reported_without_votes_witness :
    getWinner demo = (demo.candidates 1, 0, true) :=
  winner_reported_without_votes demo (by decide)
    (fun i hi1 hi2 => by
      have : i = 1 := by
        have : demo.candidateCount = 1 := by decide
        omega
      subst this
      decide)

/-- C3: `computeResults` returns the vote counts and names of all candidates
in ascending id order; with zero candidates it returns empty arrays, winner
id `0` and `computeWinner` reports no winner; with at least one candidate
the winner id is in range, `computeWinner` reports its name and count, the
winner's count is maximal, and every smaller id has a strictly smaller
count (among tied maxima the lowest id wins). -/
theorem computeResults_spec (s : VState) :
    ((showResults s).1.length = s.candidateCount ∧
     (showResults s).2.1.length = s.candidateCount ∧
     (∀ k, k < s.candidateCount →
        (showResults s).1[k]? = some (s.voteCounts (k + 1)) ∧
        (showResults s).2.1[k]? = some (s.candidates (k + 1)))) ∧
    (s.candidateCount = 0 →
      showResults s = ([], [], 0) ∧ getWinner s = ("", 0, false)) ∧
    (1 ≤ s.candidateCount →
      (getWinner s).2.2 = true ∧
      1 ≤ (showResults s).2.2 ∧ (showResults s).2.2 ≤ s.candidateCount ∧
      (getWinner s).1 = s.candidates (showResults s).2.2 ∧
      (getWinner s).2.1 = s.voteCounts (showResults s).2.2 ∧
      (∀ i, 1 ≤ i → i ≤ s.candidateCount →
        s.voteCounts i ≤ s.voteCounts (showResults s).2.2) ∧
      (∀ i, 1 ≤ i → i < (showResults s).2.2 →
        s.voteCounts i < s.voteCounts (showResults s).2.2)) := by
  refine ⟨⟨?_, ?_, ?_⟩, ?_, ?_⟩
  · rw [showResults_votes]
    simp
  · rw [showResults_names]
    simp
  · intro k hk
    rw [showResults_votes, showResults_names]
    constructor <;> simp [List.getElem?_map, List.getElem?_range, hk]
  · intro h0
    constructor
    · unfold showResults
      rw [if_pos h0]
      simp [h0]
    · unfold getWinner
      rw [if_pos h0]
  · intro h1
    have hne : s.candidateCount ≠ 0 := by omega
    obtain ⟨w1, w2, w3, w4, w5⟩ := winnerScan_spec s.voteCounts s.candidateCount h1
    rw [getWinner_pos s hne, showResults_winner_pos s hne]
    refine ⟨rfl, w1, w2, rfl, w3.symm, ?_, ?_⟩
    · intro i hi1 hi2
      rw [w3]
      exact w4 i hi1 hi2
    · intro i hi1 hi2
      rw [w3]
      exact w5 i hi1 hi2

/-- Witness for C3: in the demo state (one candidate, no votes) the winner
id is in range and the winner has maximal count. -/
theorem computeResults_spec_witness :
    (getWinner demo).2.2 = true ∧ 1 ≤ (showResults demo).2.2 ∧
      (showResults demo).2.2 ≤ demo.candidateCount :=
  ⟨((computeResults_spec demo).2.2 (by decide)).1,
   ((computeResults_spec demo).2.2 (by decide)).2.1,
   ((computeResults_spec demo).2.2 (by decide)).2.2.1⟩

theorem trim_space : " ".trim = "" := by
  have h0 : Substring.takeWhileAux " " ⟨1⟩ Char.isWhitespace ⟨1⟩ = ⟨1⟩ := by
    rw [Substring.takeWhileAux]; rfl
  have h1 : Substring.takeWhileAux " " ⟨1⟩ Char.isWhitespace ⟨0⟩ = ⟨1⟩ := by
    rw [Substring.takeWhileAux]; exact h0
  have h2 : Substring.takeRightWhileAux " " ⟨1⟩ Char.isWhitespace ⟨1⟩ = ⟨1⟩ := by
    rw [Substring.takeRightWhileAux]; rfl
  rw [String.trim]
  rw [show " ".toSubstring = ⟨" ", ⟨0⟩, ⟨1⟩⟩ from rfl]
  simp only [Substring.trim, h1, h2]
  rfl

/-- Counterexample to C4 as stated: the name `" "` (a single space) has
trimmed length 0, yet `addCandidate` accepts it instead of failing with
`EmptyName` — the contract checks `bytes(_name).length`, the raw byte
length, and never trims the name. -/
theorem addCandidate_trim_cex :
    " ".trim.utf8ByteSize = 0 ∧
    callOk (addCandidate (initState 1 0) 1 " " 0) = true := by
  constructor
  · rw [trim_space]
    decide
  · decide

/-- C4 (amended): `addCandidate(name)` issued by the authority fails with
`EmptyName` when the raw byte length of `name` is 0 (the name is not
trimmed first, so whitespace-only names are accepted), fails with
`NameTooLong` when the length exceeds 64, and otherwise assigns the new
candidate id `candidateCount + 1` with vote count 0, increments
`candidateCount`, and appends a `CandidateAdded` event — ids are dense,
assigned in creation order starting at 1. -/
theorem addCandidate_spec (s : VState) (sender : Nat) (nm : String) (t : Nat)
    (hreach : Reachable s) (hs : sender = s.admin) :
    (nm.utf8ByteSize = 0 → addCandidate s sender nm t = .error .EmptyName) ∧
    (64 < nm.utf8ByteSize → addCandidate s sender nm t = .error .NameTooLong) ∧
    (0 < nm.utf8ByteSize → nm.utf8ByteSize ≤ 64 →
      addCandidate s sender nm t = .ok
        { s with
          candidateCount := s.candidateCount + 1
          candidates := fun i => if i = s.candidateCount + 1 then nm else s.candidates i
          events := s.events ++ [VEvent.CandidateAdded (s.candidateCount + 1) nm t] } ∧
      s.voteCounts (s.candidateCount + 1) = 0) := by
  subst hs
  have hInv := reachable_inv s hreach
  refine ⟨?_, ?_, ?_⟩
  · intro h0
    unfold addCandidate
    rw [if_neg (not_not_intro rfl), if_pos (by omega)]
  · intro h64
    unfold addCandidate
    rw [if_neg (not_not_intro rfl), if_neg (by omega), if_pos (by omega)]
  · intro hl1 hl2
    constructor
    · unfold addCandidate
      rw [if_neg (not_not_intro rfl), if_neg (not_not_intro hl1),
        if_neg (not_not_intro hl2)]
    · exact hInv.counts_zero _ (by omega)

/-- Witness for C4 (amended): the empty name is rejected with `EmptyName`
right after deployment. -/
theorem addCandidate_spec_witness :
    addCandidate (initState 1 0) 1 "" 0 = .error .EmptyName :=
  (addCandidate_spec (initState 1 0) 1 "" 0 ⟨1, 0, [], by decide, rfl⟩ rfl).1
    (by decide)

/-- C5: `registerParticipant(identity)` issued by the authority fails with
`InvalidIdentity` for the null identity and with `DuplicateRegistration`
for an already registered identity; otherwise it creates the record with
`registered = true, voted = false`, and a second registration of the same
identity fails `DuplicateRegistration` leaving the registry unchanged. -/
theorem registerParticipant_spec (s : VState) (sender v t : Nat)
    (hreach : Reachable s) (hs : sender = s.admin) :
    (v = 0 → registerVoter s sender v t = .error .InvalidIdentity) ∧
    (s.registeredVoters v = true →
      registerVoter s sender v t = .error .DuplicateRegistration) ∧
    (v ≠ 0 → s.registeredVoters v = false →
      ∃ s', registerVoter s sender v t = .ok s' ∧
        s'.registeredVoters v = true ∧ s'.hasVoted v = false ∧
        (∀ a, a ≠ v → s'.registeredVoters a = s.registeredVoters a) ∧
        (∀ t2, registerVoter s' sender v t2 = .error .DuplicateRegistration ∧
          applyOp s' (Op.registerVoter sender v t2) = s')) := by
  subst hs
  have hInv := reachable_inv s hreach
  refine ⟨?_, ?_, ?_⟩
  · intro hv
    subst hv
    unfold registerVoter
    rw [if_neg (not_not_intro rfl)]
    rw [if_neg (by simp [hInv.zero_not_registered]), if_pos rfl]
  · intro hdup
    unfold registerVoter
    rw [if_neg (not_not_intro rfl), if_pos hdup]
  · intro hv0 hvreg
    have hok : registerVoter s s.admin v t = .ok
        { s with
          registeredVoters := fun a => if a = v then true else s.registeredVoters a
          events := s.events ++ [VEvent.VoterRegistered v t] } := by
      unfold registerVoter
      rw [if_neg (not_not_intro rfl), if_neg (by simp [hvreg]), if_neg hv0]
    refine ⟨_, hok, by simp, ?_, ?_, ?_⟩
    · cases h : s.hasVoted v with
      | false => rfl
      | true => exact absurd (hInv.voted_registered v h) (by simp [hvreg])
    · intro a ha
      simp [ha]
    · intro t2
      have herr : registerVoter
          { s with
            registeredVoters := fun a => if a = v then true else s.registeredVoters a
            events := s.events ++ [VEvent.VoterRegistered v t] } s.admin v t2
          = .error .DuplicateRegistration := by
        unfold registerVoter
        rw [if_neg (not_not_intro rfl), if_pos (by simp)]
      refine ⟨herr, ?_⟩
      simp only [applyOp, runOp]
      rw [herr]

/-- Witness for C5: registering voter `5` right after deployment creates the
record with `registered = true` and `voted = false`. -/
theorem registerParticipant_spec_witness :
    ∃ s', registerVoter (initState 1 0) 1 5 0 = Except.ok s' ∧
      s'.registeredVoters 5 = true ∧ s'.hasVoted 5 = false := by
  obtain ⟨s', hok, h1, h2, _, _⟩ :=
    (registerParticipant_spec (initState 1 0) 1 5 0
      ⟨1, 0, [], by decide, rfl⟩ rfl).2.2 (by decide) (by decide)
  exact ⟨s', hok, h1, h2⟩

/-- C6: `transferAuthority(newIdentity)` issued by the current authority
fails with `InvalidIdentity` for the null identity, fails with
`SameAuthority` when the new identity equals the current authority, and
otherwise atomically replaces the authority (changing nothing else except
the audit log); afterwards an authority-gated call such as `addCandidate`
by the old authority fails `AccessDenied` with no mutation, while the same
call by the new authority succeeds. -/
theorem transferAuthority_spec (s : VState) (sender newA t : Nat)
    (hreach : Reachable s) (hs : sender = s.admin) :
    (newA = 0 → transferAdmin s sender newA t = .error .InvalidIdentity) ∧
    (newA = s.admin → transferAdmin s sender newA t = .error .SameAuthority) ∧
    (newA ≠ 0 → newA ≠ s.admin →
      ∃ s', transferAdmin s sender newA t = .ok s' ∧ s'.admin = newA ∧
        s'.registeredVoters = s.registeredVoters ∧ s'.hasVoted = s.hasVoted ∧
        s'.voteCounts = s.voteCounts ∧ s'.candidates = s.candidates ∧
        s'.candidateCount = s.candidateCount ∧ s'.totalVotes = s.totalVotes ∧
        s'.votingActive = s.votingActive ∧
        s'.events = s.events ++ [VEvent.AdminChanged s.admin newA t] ∧
        (∀ nm t2, addCandidate s' sender nm t2 = .error .AccessDenied ∧
          applyOp s' (Op.addCandidate sender nm t2) = s') ∧
        (∀ nm t2, 0 < nm.utf8ByteSize → nm.utf8ByteSize ≤ 64 →
          ∃ s'', addCandidate s' newA nm t2 = .ok s'')) := by
  subst hs
  have hInv := reachable_inv s hreach
  refine ⟨?_, ?_, ?_⟩
  · intro h0
    unfold transferAdmin
    rw [if_neg (not_not_intro rfl), if_pos h0]
  · intro hsame
    unfold transferAdmin
    rw [if_neg (not_not_intro rfl),
      if_neg (by rw [hsame]; exact hInv.admin_ne), if_pos hsame]
  · intro h0 hne
    have hok : transferAdmin s s.admin newA t = .ok
        { s with
          admin := newA
          events := s.events ++ [VEvent.AdminChanged s.admin newA t] } := by
      unfold transferAdmin
      rw [if_neg (not_not_intro rfl), if_neg h0, if_neg hne]
    refine ⟨_, hok, rfl, rfl, rfl, rfl, rfl, rfl, rfl, rfl, rfl, ?_, ?_⟩
    · intro nm t2
      have herr : addCandidate
          { s with
            admin := newA
            events := s.events ++ [VEvent.AdminChanged s.admin newA t] } s.admin nm t2
          = .error .AccessDenied := by
        unfold addCandidate
        rw [if_pos (fun h => hne h.symm)]
      refine ⟨herr, ?_⟩
      simp only [applyOp, runOp]
      rw [herr]
    · intro nm t2 hl1 hl2
      exact ⟨_, by
        unfold addCandidate
        rw [if_neg (not_not_intro rfl), if_neg (not_not_intro hl1),
          if_neg (not_not_intro hl2)]⟩

/-- Witness for C6: transferring authority from `1` to `2` succeeds; after
it, `addCandidate` by `1` fails `AccessDenied` and by `2` succeeds. -/
theorem transferAuthority_spec_witness :
    ∃ s', transferAdmin (initState 1 0) 1 2 9 = Except.ok s' ∧ s'.admin = 2 ∧
      addCandidate s' 1 "Bob" 10 = Except.error VError.AccessDenied ∧
      ∃ s'', addCandidate s' 2 "Bob" 10 = Except.ok s'' := by
  obtain ⟨s', hok, hadmin, _, _, _, _, _, _, _, _, hdenied, hsucc⟩ :=
    (transferAuthority_spec (initState 1 0) 1 2 9
      ⟨1, 0, [], by decide, rfl⟩ rfl).2.2 (by decide) (by decide)
  exact ⟨s', hok, hadmin, (hdenied "Bob" 10).1, hsucc "Bob" 10 (by decide) (by decide)⟩

end VotingDApp
